import Mathlib

/-!
Verification of the feast file offline store and DynamoDB provider
(sdk/python/feast/infra/offline_stores/file.py and
sdk/python/feast/infra/aws_dynamo_provider.py) against the
natural-language specification.

The Python code is shallowly embedded: dataframes become lists of rows,
UTC timestamps become integers, feature values become integers, and the
dask operations (merge, filter, sort_values, drop_duplicates, column
selection) become the corresponding pure list functions.  Where a dask
operation leaves row order unspecified (merge output order, sort_values
tie order) the embedding fixes one deterministic order: merges are
source-major and sorts are stable insertion sorts.
-/

namespace Feast

/-- A row of a feature source parquet file, after the field renames: one
logical entity-key column (modelled as a single natural number), the
event timestamp column, the optional created timestamp column, and one
feature value column. -/
structure FeatureRow where
  key : Nat
  eventTs : Int
  createdTs : Option Int
  val : Int
deriving DecidableEq, Repr

/-- A row of the caller-supplied entity dataframe (the spine): the
entity-key column and the request timestamp column. -/
structure SpineRow where
  key : Nat
  requestTs : Int
deriving DecidableEq, Repr

/-- A row of the intermediate frame produced by the dd.merge of the
source with the spine: the source row together with the renamed spine
timestamp column (named with a double underscore in the code). -/
structure MergedRow where
  row : FeatureRow
  spineTs : Int
deriving DecidableEq, Repr

/-- The spine is sorted by its event timestamp column
(entity_df_with_features.sort_values) before the merge; modelled as a
stable insertion sort. -/
def sortSpine (spine : List SpineRow) : List SpineRow :=
  spine.insertionSort (fun a b => a.requestTs ≤ b.requestTs)

/-- dd.merge of the source frame (left) with the spine columns (right)
on equality of the join keys: an inner equi-join, determinized as
source-major order.  Each matching spine row contributes its request
timestamp under the renamed double-underscore column. -/
def ddMerge (source : List FeatureRow) (spine : List SpineRow) : List MergedRow :=
  source.flatMap (fun r =>
    (spine.filter (fun s => s.key = r.key)).map (fun s => ⟨r, s.requestTs⟩))

/-- The point-in-time filter of evaluate_historical_retrieval: keep rows
with event_timestamp >= spine_ts - ttl and event_timestamp <= spine_ts. -/
def filterTtl (ttl : Int) (l : List MergedRow) : List MergedRow :=
  l.filter (fun m => m.spineTs - ttl ≤ m.row.eventTs ∧ m.row.eventTs ≤ m.spineTs)

/-- Dropping the renamed spine timestamp column after the filter. -/
def dropSpineTsColumn (l : List MergedRow) : List FeatureRow :=
  l.map (fun m => m.row)

/-- df_to_join.sort_values(by=event_timestamp_column): sort only by the
event timestamp column (the created-timestamp sort keys are computed in
the code but never passed to sort_values), determinized as stable. -/
def sortByEventTs (l : List FeatureRow) : List FeatureRow :=
  l.insertionSort (fun a b => a.eventTs ≤ b.eventTs)

/-- drop_duplicates(join_keys, keep="last"): keep, in order, each row
whose entity key does not occur again later in the list. -/
def dropDuplicatesLast : List FeatureRow → List FeatureRow
  | [] => []
  | r :: rest =>
      if rest.any (fun r2 => r2.key == r.key) then dropDuplicatesLast rest
      else r :: dropDuplicatesLast rest

/-- A row of the returned frame after the final column selection
df_to_join[right_entity_key_columns + feature_names]: the event
timestamp column, the join key columns and the feature columns (the
created timestamp column is dropped). -/
structure OutputRow where
  key : Nat
  eventTs : Int
  val : Int
deriving DecidableEq, Repr

/-- The final column selection. -/
def selectOutputColumns (l : List FeatureRow) : List OutputRow :=
  l.map (fun r => ⟨r.key, r.eventTs, r.val⟩)

/-- The evaluation function evaluate_historical_retrieval of
FileOfflineStore.get_historical_features for a single feature view
(the loop body of the per-feature-view loop, which with one requested
feature view runs exactly once): inner-merge the source with the spine,
apply the TTL filter, drop the spine timestamp column, sort by event
timestamp, drop duplicate entity keys keeping the last, and select the
output columns. -/
def evaluateHistoricalRetrieval (spine : List SpineRow) (source : List FeatureRow)
    (ttl : Int) : List OutputRow :=
  selectOutputColumns
    (dropDuplicatesLast
      (sortByEventTs
        (dropSpineTsColumn
          (filterTtl ttl (ddMerge source (sortSpine spine))))))

/-! Model of FileOfflineStore.pull_latest_from_table_or_query and its
evaluation function evaluate_offline_job.  Here the column set is part
of the data: a dataframe row is an association list from column name to
(integer) cell value, and the frame carries its column list, so that the
KeyError raised by pandas column lookups on absent columns can be
modelled. -/

/-- A row of the source dataframe: column name to cell value. -/
abbrev ORow := List (String × Int)

/-- Cell lookup: value of column c in row r (pandas would raise on a
missing column, but every lookup the code performs is on a column whose
presence was established; the default 0 is never observed in those). -/
def rowVal (c : String) (r : ORow) : Int :=
  match r.find? (fun p => p.1 == c) with
  | some p => p.2
  | none => 0

/-- A columnar dataframe: declared columns plus rows. -/
structure SourceDF where
  cols : List String
  rows : List ORow
deriving DecidableEq

/-- Errors evaluate_offline_job can raise: the typed schema error
FeastJoinKeysDuringMaterialization (carrying the source path, the
requested join keys and the source columns), and the generic KeyError a
pandas lookup of an absent column raises. -/
inductive JobError
  | keyError (col : String)
  | feastJoinKeysDuringMaterialization (path : String)
      (requestedJoinKeys sourceColumns : List String)
deriving DecidableEq

/-- DUMMY_ENTITY_ID from feast.feature_view (column added when a source
has no join key columns). -/
def DUMMY_ENTITY_ID : String := "__dummy_id"

/-- DUMMY_ENTITY_VAL, modelled as the integer 0. -/
def DUMMY_ENTITY_VAL : Int := 0

/-- source_df.sort_values(by=event_timestamp_column), determinized as a
stable insertion sort on the event timestamp cell. -/
def sortRowsByCol (c : String) (rows : List ORow) : List ORow :=
  rows.insertionSort (fun a b => rowVal c a ≤ rowVal c b)

/-- The time-range filter of evaluate_offline_job: keep rows with
start_date <= event_ts and event_ts < end_date. -/
def filterTimeRange (c : String) (startDate endDate : Int) (rows : List ORow) : List ORow :=
  rows.filter (fun r => startDate ≤ rowVal c r ∧ rowVal c r < endDate)

/-- The join-key tuple of a row. -/
def rowKey (joinKeys : List String) (r : ORow) : List Int :=
  joinKeys.map (fun k => rowVal k r)

/-- drop_duplicates(join_key_columns, keep="last"): keep, in order, each
row whose join-key tuple does not occur again later. -/
def dropDuplicatesByKeys (joinKeys : List String) : List ORow → List ORow
  | [] => []
  | r :: rest =>
      if rest.any (fun r2 => rowKey joinKeys r2 == rowKey joinKeys r) then
        dropDuplicatesByKeys joinKeys rest
      else r :: dropDuplicatesByKeys joinKeys rest

/-- Column projection source_df[cols]: restrict a row to the given
columns. -/
def projectRow (cols : List String) (r : ORow) : ORow :=
  r.filter (fun p => p.1 ∈ cols)

/-- The part of evaluate_offline_job after the timestamp dtype lookups
have succeeded, in the order of the code: the join-key subset check
raising FeastJoinKeysDuringMaterialization, sort by event timestamp, the
half-open [start_date, end_date) filter, deduplication by join keys
keeping the last (or the dummy-entity column when there are none), and
the final selection of join-key, feature and timestamp columns (KeyError
when one of those is absent).  tsColumns is the ts_columns list of the
code. -/
def evaluateOfflineJobChecked (path : String) (src : SourceDF)
    (joinKeyColumns featureNameColumns : List String)
    (eventTimestampColumn : String) (tsColumns : List String)
    (startDate endDate : Int) : Except JobError SourceDF :=
  if ¬ (∀ k ∈ joinKeyColumns, k ∈ src.cols) then
    .error (.feastJoinKeysDuringMaterialization path joinKeyColumns src.cols)
  else
    let sorted := sortRowsByCol eventTimestampColumn src.rows
    let filtered := filterTimeRange eventTimestampColumn startDate endDate sorted
    let columnsToExtract := (joinKeyColumns ++ featureNameColumns ++ tsColumns).dedup
    if joinKeyColumns.isEmpty then
      let rows2 := filtered.map (fun r => r ++ [(DUMMY_ENTITY_ID, DUMMY_ENTITY_VAL)])
      let availCols := src.cols ++ [DUMMY_ENTITY_ID]
      let extract := columnsToExtract ++ [DUMMY_ENTITY_ID]
      match extract.find? (fun c => c ∉ availCols) with
      | some c => .error (.keyError c)
      | none => .ok ⟨extract, rows2.map (projectRow extract)⟩
    else
      let deduped := dropDuplicatesByKeys joinKeyColumns filtered
      match columnsToExtract.find? (fun c => c ∉ src.cols) with
      | some c => .error (.keyError c)
      | none => .ok ⟨columnsToExtract, deduped.map (projectRow columnsToExtract)⟩

/-- The ts_columns list of evaluate_offline_job: the event timestamp
column followed by the created timestamp column when there is one. -/
def tsColumnsOf (eventTimestampColumn : String) : Option String → List String
  | some c => [eventTimestampColumn, c]
  | none => [eventTimestampColumn]

/-- The evaluation function evaluate_offline_job of
FileOfflineStore.pull_latest_from_table_or_query: the dtype lookup of
the event (and optional created) timestamp column raises KeyError when
the column is absent; the rest is evaluateOfflineJobChecked. -/
def evaluateOfflineJob (path : String) (src : SourceDF)
    (joinKeyColumns featureNameColumns : List String)
    (eventTimestampColumn : String) (createdTimestampColumn : Option String)
    (startDate endDate : Int) : Except JobError SourceDF :=
  if eventTimestampColumn ∉ src.cols then
    .error (.keyError eventTimestampColumn)
  else match createdTimestampColumn with
  | some c =>
      if c ∉ src.cols then .error (.keyError c)
      else evaluateOfflineJobChecked path src joinKeyColumns featureNameColumns
        eventTimestampColumn (tsColumnsOf eventTimestampColumn createdTimestampColumn)
        startDate endDate
  | none =>
      evaluateOfflineJobChecked path src joinKeyColumns featureNameColumns
        eventTimestampColumn (tsColumnsOf eventTimestampColumn createdTimestampColumn)
        startDate endDate

/-- Discriminator: whether a pull result is the typed schema error
FeastJoinKeysDuringMaterialization. -/
def isSchemaError : Except JobError SourceDF → Bool
  | .error (.feastJoinKeysDuringMaterialization _ _ _) => true
  | _ => false

/-! Model of AwsDynamoProvider (aws_dynamo_provider.py): online_read and
materialize_single_feature_view. -/

/-- A stored DynamoDB item as written by online_write_batch: the event
timestamp (stored as a string in the source; its content is opaque here
and modelled as an integer) and the serialized feature values (feature
name to value; the protobuf serialize/parse round trip is modelled as
the identity). -/
structure DynamoItem where
  eventTs : Int
  vals : List (String × Int)
deriving DecidableEq, Repr

/-- The response of table.get_item for one document id: some item when a
row is stored under that id, none when not (in which case the response
dict of boto3 has no Item entry, so the source line
value = response[Item] raises KeyError). -/
def getItemResponse (table : List (Nat × DynamoItem)) (docId : Nat) : Option DynamoItem :=
  (table.find? (fun p => p.1 == docId)).map (fun p => p.2)

/-- AwsDynamoProvider.online_read: for each requested entity key, in
input order, compute the document id (compute_datastore_entity_id, an
opaque deterministic hash passed in as hashId), issue get_item and take
response[Item].  When the item is absent that dict access raises
KeyError, aborting the whole call; the branch of the source that would
append (None, None) is unreachable, because it is guarded by
value is not None and value always is an item when the lookup returned.
A present item contributes (event_ts, parsed feature map) at its
position. -/
def onlineRead (hashId : Nat → Nat) (table : List (Nat × DynamoItem)) :
    List Nat → Except String (List (Option Int × Option (List (String × Int))))
  | [] => .ok []
  | k :: ks =>
      match getItemResponse table (hashId k) with
      | none => .error "KeyError: Item"
      | some item =>
          match onlineRead hashId table ks with
          | .error e => .error e
          | .ok rest => .ok ((some item.eventTs, some item.vals) :: rest)

/-- The registry-visible state mutated by materialize_single_feature_view:
the materialization_intervals list of the feature view and whether
registry.apply_feature_view has been called with the updated view. -/
structure MaterializationState where
  materializationIntervals : List (Int × Int)
  appliedToRegistry : Bool
deriving DecidableEq, Repr

/-- AwsDynamoProvider.materialize_single_feature_view: pull the latest
rows for the window from the offline store and convert them (pullSucceeds
covers pull_latest_from_table_or_query, the field mapping and
_convert_arrow_to_proto, none of which touch the interval list), then
online_write_batch (writeSucceeds); a raised exception propagates and
skips everything after it.  Only after a successful write are
(start_date, end_date) appended to feature_view.materialization_intervals
and registry.apply_feature_view called.  Returns the error, if any,
paired with the resulting state. -/
def materializeSingleFeatureView (pullSucceeds writeSucceeds : Bool)
    (s : MaterializationState) (startDate endDate : Int) :
    Option String × MaterializationState :=
  if ¬ pullSucceeds then (some "offline pull failed", s)
  else if ¬ writeSucceeds then (some "online write failed", s)
  else (none,
    { materializationIntervals := s.materializationIntervals ++ [(startDate, endDate)],
      appliedToRegistry := true })

/-! Model of FileOfflineStore.get_historical_features itself (file.py
lines 108-372): the input type check, the event-timestamp column
inference, the timestamp-range probe, and the lazy construction of a
FileRetrievalJob.  Reads of feature-source parquet files are tracked as
explicit effects; the construction path contains none, the evaluation
function one per feature view. -/

/-- The dataframe kinds distinguished by the isinstance checks of the
code: pandas.DataFrame, dask.dataframe.DataFrame, or anything else. -/
inductive DFKind
  | pandas
  | dask
  | other
deriving DecidableEq, Repr

/-- The caller-supplied entity dataframe: its runtime kind, its column
names, the subset of columns with a datetime dtype (what
select_dtypes(include=datetime) returns), and its rows. -/
structure EntityDF where
  kind : DFKind
  cols : List String
  datetimeCols : List String
  rows : List SpineRow
deriving DecidableEq, Repr

/-- The error get_historical_features raises on the modelled paths:
ValueError with a message. -/
inductive GHFError
  | valueError (msg : String)
deriving DecidableEq, Repr

/-- A feature view as the evaluation function sees it: the batch source
parquet path, the TTL, and (bundled here for the embedding) the rows of
the parquet file behind that path. -/
structure FeatureViewModel where
  sourcePath : String
  ttl : Int
  sourceRows : List FeatureRow
deriving DecidableEq, Repr

/-- The lazy FileRetrievalJob: the data captured by the closure
evaluate_historical_retrieval together with the full_feature_names
flag; constructing it runs nothing. -/
structure FileRetrievalJob where
  spine : List SpineRow
  view : FeatureViewModel
  fullFeatureNames : Bool
deriving DecidableEq, Repr

/-- Observable side effects of the file offline store: reading a source
parquet file (dd.read_parquet). -/
inductive FileEffect
  | readParquet (path : String)
deriving DecidableEq, Repr

/-- DEFAULT_ENTITY_DF_EVENT_TIMESTAMP_COL from offline_utils. -/
def DEFAULT_ENTITY_DF_EVENT_TIMESTAMP_COL : String := "event_timestamp"

/-- The initial input type check of get_historical_features (file.py
lines 117-122): it admits pandas AND dask dataframes and raises
ValueError for anything else. -/
def entityDfTypePasses (df : EntityDF) : Bool :=
  df.kind == DFKind.pandas || df.kind == DFKind.dask

/-- The event-timestamp column resolution (lines 123-136): use the
default column when present, else the unique datetime column, else
raise ValueError. -/
def resolveEntityDfEventTimestampCol (df : EntityDF) : Except GHFError String :=
  if DEFAULT_ENTITY_DF_EVENT_TIMESTAMP_COL ∈ df.cols then
    .ok DEFAULT_ENTITY_DF_EVENT_TIMESTAMP_COL
  else match df.datetimeCols with
    | [c] => .ok c
    | _ => .error (.valueError
        "Please provide an entity_df with a column named event_timestamp representing the time of events.")

/-- _get_entity_df_event_timestamp_range (lines 502-519): raises
ValueError unless the entity dataframe is a pandas DataFrame, then
returns the min and max request timestamps. -/
def entityDfEventTimestampRange (df : EntityDF) : Except GHFError (Int × Int) :=
  if df.kind = DFKind.pandas then
    .ok ((df.rows.map (fun r => r.requestTs)).foldl min 0,
         (df.rows.map (fun r => r.requestTs)).foldl max 0)
  else
    .error (.valueError "Please provide an entity_df of type DataFrame instead of the given type")

/-- FileOfflineStore.get_historical_features for one requested feature
view: type check, timestamp column inference, timestamp range probe,
then construction of the lazy FileRetrievalJob.  The second component is
the list of source-read effects performed during construction. -/
def getHistoricalFeatures (df : EntityDF) (view : FeatureViewModel) (fullNames : Bool) :
    Except GHFError FileRetrievalJob × List FileEffect :=
  if ¬ entityDfTypePasses df then
    (.error (.valueError "Please provide an entity_df of type DataFrame instead of the given type"), [])
  else match resolveEntityDfEventTimestampCol df with
    | .error e => (.error e, [])
    | .ok _tsCol =>
        match entityDfEventTimestampRange df with
        | .error e => (.error e, [])
        | .ok _range => (.ok ⟨df.rows, view, fullNames⟩, [])

/-- Consuming the job (to_df / to_arrow / persist all call the stored
evaluation function): runs evaluate_historical_retrieval, reading the
source parquet file of the captured feature view. -/
def jobToDf (job : FileRetrievalJob) : List OutputRow × List FileEffect :=
  (evaluateHistoricalRetrieval job.spine job.view.sourceRows job.view.ttl,
   [FileEffect.readParquet job.view.sourcePath])

theorem mem_sortSpine {s : SpineRow} {spine : List SpineRow} :
    s ∈ sortSpine spine ↔ s ∈ spine := by
  unfold sortSpine
  exact List.mem_insertionSort _

theorem mem_sortByEventTs {r : FeatureRow} {l : List FeatureRow} :
    r ∈ sortByEventTs l ↔ r ∈ l := by
  unfold sortByEventTs
  exact List.mem_insertionSort _

theorem mem_of_mem_dropDuplicatesLast {r : FeatureRow} {l : List FeatureRow}
    (h : r ∈ dropDuplicatesLast l) : r ∈ l := by
  induction l with
  | nil => simp [dropDuplicatesLast] at h
  | cons a rest ih =>
      unfold dropDuplicatesLast at h
      by_cases hc : rest.any (fun r2 => r2.key == a.key)
      · simp only [hc, if_true] at h
        exact List.mem_cons_of_mem _ (ih h)
      · simp only [hc, if_false] at h
        rcases List.mem_cons.mp h with h1 | h2
        · exact h1 ▸ List.mem_cons_self a rest
        · exact List.mem_cons_of_mem _ (ih h2)

theorem mem_filterTtl {ttl : Int} {m : MergedRow} {l : List MergedRow} :
    m ∈ filterTtl ttl l ↔ m ∈ l ∧ m.spineTs - ttl ≤ m.row.eventTs ∧ m.row.eventTs ≤ m.spineTs := by
  unfold filterTtl
  simp [List.mem_filter]

theorem mem_ddMerge {m : MergedRow} {source : List FeatureRow} {spine : List SpineRow} :
    m ∈ ddMerge source spine ↔
      m.row ∈ source ∧ ∃ s ∈ spine, s.key = m.row.key ∧ s.requestTs = m.spineTs := by
  unfold ddMerge
  constructor
  · intro h
    rcases List.mem_flatMap.mp h with ⟨r, hr, hm⟩
    rcases List.mem_map.mp hm with ⟨s, hs, hms⟩
    rcases List.mem_filter.mp hs with ⟨hsmem, hskey⟩
    cases hms
    refine ⟨hr, s, hsmem, ?_, rfl⟩
    exact of_decide_eq_true hskey
  · rintro ⟨hr, s, hs, hkey, hts⟩
    refine List.mem_flatMap.mpr ⟨m.row, hr, List.mem_map.mpr ⟨s, ?_, ?_⟩⟩
    · exact List.mem_filter.mpr ⟨hs, decide_eq_true hkey⟩
    · cases m
      simp_all

/-- Every output row of the single-view evaluation descends from a
merged-and-filtered row. -/
theorem output_row_origin {spine : List SpineRow} {source : List FeatureRow}
    {ttl : Int} {o : OutputRow} (h : o ∈ evaluateHistoricalRetrieval spine source ttl) :
    ∃ m ∈ filterTtl ttl (ddMerge source (sortSpine spine)),
      m.row.key = o.key ∧ m.row.eventTs = o.eventTs ∧ m.row.val = o.val := by
  unfold evaluateHistoricalRetrieval selectOutputColumns at h
  rcases List.mem_map.mp h with ⟨r, hr, hro⟩
  have hr2 : r ∈ sortByEventTs (dropSpineTsColumn (filterTtl ttl (ddMerge source (sortSpine spine)))) :=
    mem_of_mem_dropDuplicatesLast hr
  have hr3 : r ∈ dropSpineTsColumn (filterTtl ttl (ddMerge source (sortSpine spine))) :=
    mem_sortByEventTs.mp hr2
  rcases List.mem_map.mp hr3 with ⟨m, hm, hmr⟩
  refine ⟨m, hm, ?_, ?_, ?_⟩ <;> (cases hro; cases hmr; rfl)

theorem mem_sortRowsByCol {c : String} {r : ORow} {rows : List ORow} :
    r ∈ sortRowsByCol c rows ↔ r ∈ rows := by
  unfold sortRowsByCol
  exact List.mem_insertionSort _

theorem mem_filterTimeRange {c : String} {s e : Int} {r : ORow} {rows : List ORow} :
    r ∈ filterTimeRange c s e rows ↔ r ∈ rows ∧ s ≤ rowVal c r ∧ rowVal c r < e := by
  unfold filterTimeRange
  simp [List.mem_filter]

theorem mem_of_mem_dropDuplicatesByKeys {jk : List String} {r : ORow} {l : List ORow}
    (h : r ∈ dropDuplicatesByKeys jk l) : r ∈ l := by
  induction l with
  | nil => simp [dropDuplicatesByKeys] at h
  | cons a rest ih =>
      unfold dropDuplicatesByKeys at h
      by_cases hc : rest.any (fun r2 => rowKey jk r2 == rowKey jk a)
      · simp only [hc, if_true] at h
        exact List.mem_cons_of_mem _ (ih h)
      · simp only [hc, if_false] at h
        rcases List.mem_cons.mp h with h1 | h2
        · exact h1 ▸ List.mem_cons_self a rest
        · exact List.mem_cons_of_mem _ (ih h2)

theorem find?_projectRow {c : String} {cols : List String} (hc : c ∈ cols) (r : ORow) :
    (projectRow cols r).find? (fun p => p.1 == c) = r.find? (fun p => p.1 == c) := by
  induction r with
  | nil => rfl
  | cons p rest ih =>
      by_cases hp : p.1 = c
      · have hmem : p.1 ∈ cols := hp ▸ hc
        have hbe : (p.1 == c) = true := by simp [hp]
        simp [projectRow, List.filter_cons, hmem, List.find?_cons, hbe]
      · have hbe : (p.1 == c) = false := by simp [hp]
        by_cases hmem : p.1 ∈ cols
        · simpa [projectRow, List.filter_cons, hmem, List.find?_cons, hbe] using ih
        · simpa [projectRow, List.filter_cons, hmem, List.find?_cons, hbe] using ih

theorem rowVal_projectRow {c : String} {cols : List String} (hc : c ∈ cols) (r : ORow) :
    rowVal c (projectRow cols r) = rowVal c r := by
  unfold rowVal
  rw [find?_projectRow hc]

theorem rowVal_append_dummy (c : String) (r : ORow) :
    rowVal c (r ++ [(DUMMY_ENTITY_ID, DUMMY_ENTITY_VAL)]) = rowVal c r := by
  unfold rowVal
  rcases hf : r.find? (fun p => p.1 == c) with _ | p
  · rw [List.find?_append, hf]
    by_cases h : DUMMY_ENTITY_ID = c
    · subst h
      simp [List.find?_cons, DUMMY_ENTITY_VAL, Option.or]
    · have hbe : (DUMMY_ENTITY_ID == c) = false := by simp [h]
      simp [List.find?_cons, hbe, Option.or]
  · rw [List.find?_append, hf]
    simp [Option.or]

theorem checked_ok_time_bounds {path : String} {src : SourceDF}
    {jk fc : List String} {ec : String} {ts : List String} {s e : Int} {out : SourceDF}
    (h : evaluateOfflineJobChecked path src jk fc ec ts s e = .ok out) (hts : ec ∈ ts) :
    ∀ r ∈ out.rows, s ≤ rowVal ec r ∧ rowVal ec r < e := by
  simp only [evaluateOfflineJobChecked] at h
  by_cases hjoin : ∀ k ∈ jk, k ∈ src.cols
  · rw [if_neg (not_not_intro hjoin)] at h
    have hext : ec ∈ (jk ++ fc ++ ts).dedup :=
      List.mem_dedup.mpr (List.mem_append.mpr (Or.inr hts))
    by_cases hempty : jk.isEmpty = true
    · rw [if_pos hempty] at h
      rcases hfind : List.find?
          (fun c => decide (c ∉ src.cols ++ [DUMMY_ENTITY_ID]))
          ((jk ++ fc ++ ts).dedup ++ [DUMMY_ENTITY_ID]) with _ | c
      · rw [hfind] at h
        injection h with h
        subst h
        intro r hr
        rcases List.mem_map.mp hr with ⟨r1, hr1, rfl⟩
        rcases List.mem_map.mp hr1 with ⟨r2, hr2, rfl⟩
        rw [rowVal_projectRow (List.mem_append.mpr (Or.inl hext)),
          rowVal_append_dummy]
        exact (mem_filterTimeRange.mp hr2).2
      · rw [hfind] at h
        exact absurd h (by simp)
    · rw [if_neg hempty] at h
      rcases hfind : List.find? (fun c => decide (c ∉ src.cols)) (jk ++ fc ++ ts).dedup
          with _ | c
      · rw [hfind] at h
        injection h with h
        subst h
        intro r hr
        rcases List.mem_map.mp hr with ⟨r1, hr1, rfl⟩
        rw [rowVal_projectRow hext]
        exact (mem_filterTimeRange.mp
          (mem_of_mem_dropDuplicatesByKeys hr1)).2
      · rw [hfind] at h
        exact absurd h (by simp)
  · rw [if_pos hjoin] at h
    exact absurd h (by simp)

/-- Claim C1: every merged row surviving the point-in-time filter of
evaluate_historical_retrieval has its source event timestamp at most the
spine request timestamp, and consequently every row of the returned
frame descends from some spine row whose request timestamp is at least
the output row event timestamp: a source row strictly in the future of a
spine row never contributes feature values to it. -/
theorem no_leakage_invariant (spine : List SpineRow) (source : List FeatureRow) (ttl : Int) :
    (∀ m ∈ filterTtl ttl (ddMerge source (sortSpine spine)), m.row.eventTs ≤ m.spineTs)
    ∧ (∀ o ∈ evaluateHistoricalRetrieval spine source ttl,
        ∃ s ∈ spine, s.key = o.key ∧ o.eventTs ≤ s.requestTs) := by
  constructor
  · intro m hm
    exact (mem_filterTtl.mp hm).2.2
  · intro o ho
    rcases output_row_origin ho with ⟨m, hm, hkey, hts, _⟩
    rcases mem_filterTtl.mp hm with ⟨hmerge, _, hle⟩
    rcases (mem_ddMerge.mp hmerge).2 with ⟨s, hs, hskey, hsts⟩
    exact ⟨s, mem_sortSpine.mp hs, by rw [hskey, hkey], by rw [hsts, ← hts]; exact hle⟩

theorem no_leakage_invariant_witness :
    (⟨1, 9, 42⟩ : OutputRow) ∈ evaluateHistoricalRetrieval [⟨1, 10⟩] [⟨1, 9, none, 42⟩] 100
    ∧ ∃ s ∈ ([⟨1, 10⟩] : List SpineRow), s.key = 1 ∧ (9 : Int) ≤ s.requestTs :=
  ⟨by decide,
   (no_leakage_invariant [⟨1, 10⟩] [⟨1, 9, none, 42⟩] 100).2 ⟨1, 9, 42⟩ (by decide)⟩

/-- Claim C2, counterexample: a source row whose event timestamp equals
request timestamp minus TTL (here 10 - 5 = 5) is NOT excluded: it passes
the filter (which uses a closed >= bound) and its feature value 7 is
returned for the spine row, refuting the claimed half-open window. -/
theorem ttl_boundary_counterexample :
    evaluateHistoricalRetrieval [⟨1, 10⟩] [⟨1, 5, none, 7⟩] 5 = [⟨1, 5, 7⟩] := by
  decide

/-- Claim C2, amended: the as-of join window is closed at both edges: a
merged row is kept by the point-in-time filter exactly when its event
timestamp is at most the request timestamp and at least (not strictly
greater than) the request timestamp minus TTL, so a row with event_ts
exactly request_ts - TTL is included. -/
theorem ttl_boundary_amended (ttl : Int) (l : List MergedRow) (m : MergedRow) (h : m ∈ l) :
    m ∈ filterTtl ttl l ↔
      m.row.eventTs ≤ m.spineTs ∧ m.spineTs - ttl ≤ m.row.eventTs := by
  rw [mem_filterTtl]
  constructor
  · rintro ⟨-, h1, h2⟩; exact ⟨h2, h1⟩
  · rintro ⟨h2, h1⟩; exact ⟨h, h1, h2⟩

theorem ttl_boundary_amended_witness :
    (⟨⟨1, 5, none, 7⟩, 10⟩ : MergedRow) ∈ filterTtl 5 [⟨⟨1, 5, none, 7⟩, 10⟩] ↔
      (5 : Int) ≤ 10 ∧ (10 : Int) - 5 ≤ 5 :=
  ttl_boundary_amended 5 [⟨⟨1, 5, none, 7⟩, 10⟩] ⟨⟨1, 5, none, 7⟩, 10⟩ (by decide)

/-- Claim C3, at the failing input: a spine with exactly one row whose
entity key (1) matches no source row produces an EMPTY output frame
rather than one row with null feature values: the inner dd.merge drops
unmatched spine rows and nothing merges them back, so the output row
count (0) differs from the spine row count (1). -/
theorem null_on_miss_failing :
    evaluateHistoricalRetrieval [⟨1, 10⟩] [⟨2, 9, none, 7⟩] 100 = []
    ∧ ([⟨1, 10⟩] : List SpineRow).length = 1 := by
  decide

/-- Claim C4, at the failing input: two candidate rows for entity 1 share
event timestamp 9 and have creation timestamps 1 < 2 (feature values 111
and 222 respectively).  The code sorts only by event timestamp (the
created-timestamp sort keys are computed but never used) and keeps the
last row, so with input order [created 2, created 1] it returns the
creation-timestamp-1 value 111, not the claimed value of the latest
creation timestamp, and reversing the input order flips the result. -/
theorem dedup_determinism_failing :
    evaluateHistoricalRetrieval [⟨1, 10⟩] [⟨1, 9, some 2, 222⟩, ⟨1, 9, some 1, 111⟩] 100
      = [⟨1, 9, 111⟩]
    ∧ evaluateHistoricalRetrieval [⟨1, 10⟩] [⟨1, 9, some 1, 111⟩, ⟨1, 9, some 2, 222⟩] 100
      = [⟨1, 9, 222⟩] := by
  decide

/-- Claim C5: whenever evaluate_offline_job (the evaluation function of
pull_latest_from_table_or_query) succeeds, every row of the returned
batch has its event timestamp in the half-open interval
[start_date, end_date); moreover the time filter keeps a row exactly
when start_date <= event_ts < end_date, so a row with event_ts equal to
start_date passes the filter and one with event_ts equal to end_date is
excluded. -/
theorem pull_latest_time_bounds (path : String) (src : SourceDF)
    (jk fc : List String) (ec : String) (cc : Option String)
    (s e : Int) (out : SourceDF)
    (h : evaluateOfflineJob path src jk fc ec cc s e = .ok out) :
    (∀ r ∈ out.rows, s ≤ rowVal ec r ∧ rowVal ec r < e)
    ∧ ∀ (rows : List ORow) (r : ORow),
        r ∈ filterTimeRange ec s e rows ↔
          r ∈ rows ∧ s ≤ rowVal ec r ∧ rowVal ec r < e := by
  constructor
  · cases cc with
    | none =>
        simp only [evaluateOfflineJob] at h
        by_cases hec : ec ∈ src.cols
        · rw [if_neg (not_not_intro hec)] at h
          exact checked_ok_time_bounds h (by simp [tsColumnsOf])
        · rw [if_pos hec] at h
          exact absurd h (by simp)
    | some c =>
        simp only [evaluateOfflineJob] at h
        by_cases hec : ec ∈ src.cols
        · rw [if_neg (not_not_intro hec)] at h
          by_cases hc : c ∈ src.cols
          · rw [if_neg (not_not_intro hc)] at h
            exact checked_ok_time_bounds h (by simp [tsColumnsOf])
          · rw [if_pos hc] at h
            exact absurd h (by simp)
        · rw [if_pos hec] at h
          exact absurd h (by simp)
  · intro rows r
    exact mem_filterTimeRange

theorem pull_latest_time_bounds_witness :
    (0 : Int) ≤ rowVal "ts" [("k", 1), ("f", 5), ("ts", 0)]
    ∧ rowVal "ts" [("k", 1), ("f", 5), ("ts", 0)] < 10 :=
  (pull_latest_time_bounds "p" ⟨["k", "f", "ts"], [[("k", 1), ("f", 5), ("ts", 0)]]⟩
      ["k"] ["f"] "ts" none 0 10
      ⟨["k", "f", "ts"], [[("k", 1), ("f", 5), ("ts", 0)]]⟩ (by rfl)).1
    [("k", 1), ("f", 5), ("ts", 0)] (by decide)

/-- Claim C6, counterexample: a pull whose feature column f is absent
from the source (join key k and timestamp column ts are present) does
NOT fail with the typed schema error: the join-key check passes and the
final column selection raises the generic KeyError instead, so the claim
that any absent requested column yields a schema error is false. -/
theorem pull_schema_error_counterexample :
    evaluateOfflineJob "p" ⟨["k", "ts"], []⟩ ["k"] ["f"] "ts" none 0 10
      = .error (.keyError "f")
    ∧ isSchemaError
        (evaluateOfflineJob "p" ⟨["k", "ts"], []⟩ ["k"] ["f"] "ts" none 0 10)
      = false := by
  constructor <;> rfl

/-- Claim C6, amended: only absent join-key columns raise the typed
schema error FeastJoinKeysDuringMaterialization (identifying the source
path, the requested join keys and the source columns); when the
timestamp columns are present and some join key is absent the schema
error is raised before any batch is returned, and when every requested
column is present no error is raised at all.  (An absent feature or
timestamp column raises a generic KeyError instead, as the
counterexample shows.) -/
theorem pull_schema_error_amended (path : String) (src : SourceDF)
    (jk fc : List String) (ec : String) (cc : Option String) (s e : Int)
    (hec : ec ∈ src.cols) (hcc : ∀ c, cc = some c → c ∈ src.cols) :
    (¬ (∀ k ∈ jk, k ∈ src.cols) →
      evaluateOfflineJob path src jk fc ec cc s e
        = .error (.feastJoinKeysDuringMaterialization path jk src.cols))
    ∧ ((∀ k ∈ jk, k ∈ src.cols) → (∀ f ∈ fc, f ∈ src.cols) →
      ∃ out, evaluateOfflineJob path src jk fc ec cc s e = .ok out) := by
  have hred : evaluateOfflineJob path src jk fc ec cc s e
      = evaluateOfflineJobChecked path src jk fc ec (tsColumnsOf ec cc) s e := by
    cases cc with
    | none =>
        simp only [evaluateOfflineJob]
        rw [if_neg (not_not_intro hec)]
    | some c =>
        simp only [evaluateOfflineJob]
        rw [if_neg (not_not_intro hec), if_neg (not_not_intro (hcc c rfl))]
  constructor
  · intro hnot
    rw [hred]
    simp only [evaluateOfflineJobChecked]
    rw [if_pos hnot]
  · intro hjk hfc
    rw [hred]
    have hsub : ∀ x ∈ (jk ++ fc ++ tsColumnsOf ec cc).dedup, x ∈ src.cols := by
      intro x hx
      rcases List.mem_append.mp (List.mem_dedup.mp hx) with h1 | h2
      · rcases List.mem_append.mp h1 with hj | hf
        · exact hjk x hj
        · exact hfc x hf
      · cases cc with
        | none =>
            rw [tsColumnsOf, List.mem_singleton] at h2
            exact h2 ▸ hec
        | some c =>
            rw [tsColumnsOf] at h2
            rcases List.mem_cons.mp h2 with h3 | h3
            · exact h3 ▸ hec
            · rw [List.mem_singleton] at h3
              exact h3 ▸ hcc c rfl
    simp only [evaluateOfflineJobChecked]
    rw [if_neg (not_not_intro hjk)]
    by_cases hempty : jk.isEmpty = true
    · rw [if_pos hempty]
      have hfind : List.find?
          (fun c => decide (c ∉ src.cols ++ [DUMMY_ENTITY_ID]))
          ((jk ++ fc ++ tsColumnsOf ec cc).dedup ++ [DUMMY_ENTITY_ID]) = none := by
        rw [List.find?_eq_none]
        intro x hx
        simp only [decide_eq_true_eq, not_not]
        rcases List.mem_append.mp hx with hxd | hxD
        · exact List.mem_append.mpr (Or.inl (hsub x hxd))
        · exact List.mem_append.mpr (Or.inr hxD)
      rw [hfind]
      exact ⟨_, rfl⟩
    · rw [if_neg hempty]
      have hfind : List.find? (fun c => decide (c ∉ src.cols))
          ((jk ++ fc ++ tsColumnsOf ec cc).dedup) = none := by
        rw [List.find?_eq_none]
        intro x hx
        simp only [decide_eq_true_eq, not_not]
        exact hsub x hx
      rw [hfind]
      exact ⟨_, rfl⟩

theorem pull_schema_error_amended_witness :
    (evaluateOfflineJob "p" ⟨["k", "ts"], []⟩ ["j"] [] "ts" none 0 10
       = .error (.feastJoinKeysDuringMaterialization "p" ["j"] ["k", "ts"]))
    ∧ ∃ out, evaluateOfflineJob "p" ⟨["k", "ts"], []⟩ ["k"] [] "ts" none 0 10
       = .ok out :=
  ⟨(pull_schema_error_amended "p" ⟨["k", "ts"], []⟩ ["j"] [] "ts" none 0 10
      (by decide) (fun c h => nomatch h)).1 (by decide),
   (pull_schema_error_amended "p" ⟨["k", "ts"], []⟩ ["k"] [] "ts" none 0 10
      (by decide) (fun c h => nomatch h)).2 (by decide) (by decide)⟩

/-- Claim C7: materialize_single_feature_view appends exactly
(start_date, end_date) to the materialization interval list if and only
if the offline pull and the online batch write both complete
successfully; on any failure the returned state is exactly the input
state (intervals untouched, registry not updated), and on success the
interval is appended and the registry updated. -/
theorem materialization_interval_iff_write_success
    (p w : Bool) (s : MaterializationState) (a b : Int) :
    ((materializeSingleFeatureView p w s a b).2.materializationIntervals
        = s.materializationIntervals ++ [(a, b)] ↔ (p = true ∧ w = true))
    ∧ ((materializeSingleFeatureView p w s a b).1 ≠ none →
        (materializeSingleFeatureView p w s a b).2 = s)
    ∧ (p = true → w = true →
        (materializeSingleFeatureView p w s a b)
          = (none, ⟨s.materializationIntervals ++ [(a, b)], true⟩)) := by
  cases p <;> cases w <;> simp [materializeSingleFeatureView]

theorem materialization_interval_iff_write_success_witness :
    (materializeSingleFeatureView true false ⟨[(0, 1)], false⟩ 1 2).2
      = (⟨[(0, 1)], false⟩ : MaterializationState)
    ∧ (materializeSingleFeatureView true true ⟨[(0, 1)], false⟩ 1 2)
      = (none, (⟨[(0, 1), (1, 2)], true⟩ : MaterializationState)) :=
  ⟨(materialization_interval_iff_write_success true false ⟨[(0, 1)], false⟩ 1 2).2.1
      (by decide),
   (materialization_interval_iff_write_success true true ⟨[(0, 1)], false⟩ 1 2).2.2
      rfl rfl⟩

/-- Claim C8, at the failing input: reading entity keys [2, 1] against a
store holding only key 2 does not return [(row 2), (None, None)]: the
access response[Item] for the absent key 1 raises KeyError and aborts
the whole call (the branch appending (None, None) is unreachable);
reading only the present key 2 returns its event timestamp and feature
map at position 0. -/
theorem online_read_miss_failing :
    onlineRead (fun k => k) [(2, ⟨5, [("f", 9)]⟩)] [2, 1] = .error "KeyError: Item"
    ∧ onlineRead (fun k => k) [(2, ⟨5, [("f", 9)]⟩)] [2]
        = .ok [(some 5, some [("f", 9)])] := by
  constructor <;> rfl

/-- Claim C9: constructing a historical retrieval job performs no read
of any feature source (the effect trace of get_historical_features is
empty on every input), and for every successfully constructed job,
consuming it runs the stored evaluation function, which is what reads
the source parquet file. -/
theorem retrieval_job_lazy (df : EntityDF) (view : FeatureViewModel) (b : Bool) :
    (getHistoricalFeatures df view b).2 = []
    ∧ ∀ job, (getHistoricalFeatures df view b).1 = .ok job →
        jobToDf job
          = (evaluateHistoricalRetrieval df.rows view.sourceRows view.ttl,
             [FileEffect.readParquet view.sourcePath]) := by
  constructor
  · unfold getHistoricalFeatures
    split
    · rfl
    · split
      · rfl
      · split
        · rfl
        · rfl
  · intro job hjob
    unfold getHistoricalFeatures at hjob
    split at hjob
    · simp at hjob
    · split at hjob
      · simp at hjob
      · split at hjob
        · simp at hjob
        · simp only at hjob
          injection hjob with hjob
          subst hjob
          rfl

theorem retrieval_job_lazy_witness :
    (getHistoricalFeatures ⟨DFKind.pandas, ["event_timestamp"], [], [⟨1, 10⟩]⟩
        ⟨"data.parquet", 5, []⟩ false).2 = []
    ∧ jobToDf ⟨[⟨1, 10⟩], ⟨"data.parquet", 5, []⟩, false⟩
        = (evaluateHistoricalRetrieval [⟨1, 10⟩] [] 5,
           [FileEffect.readParquet "data.parquet"]) :=
  ⟨(retrieval_job_lazy ⟨DFKind.pandas, ["event_timestamp"], [], [⟨1, 10⟩]⟩
      ⟨"data.parquet", 5, []⟩ false).1,
   (retrieval_job_lazy ⟨DFKind.pandas, ["event_timestamp"], [], [⟨1, 10⟩]⟩
      ⟨"data.parquet", 5, []⟩ false).2
     ⟨[⟨1, 10⟩], ⟨"data.parquet", 5, []⟩, false⟩ (by rfl)⟩

/-- Claim C10: a dask entity dataframe passes the initial isinstance
check of get_historical_features (which explicitly admits dask
alongside pandas) but the call still raises ValueError before any
retrieval job is constructed, because
_get_entity_df_event_timestamp_range accepts only pandas dataframes;
consequently only a pandas entity dataframe can yield a returned job. -/
theorem dask_entity_df_rejected (df : EntityDF) (view : FeatureViewModel) (b : Bool) :
    (df.kind = DFKind.dask →
      entityDfTypePasses df = true
      ∧ (∃ m, (getHistoricalFeatures df view b).1 = .error (.valueError m))
      ∧ ∀ job, (getHistoricalFeatures df view b).1 ≠ .ok job)
    ∧ (∀ job, (getHistoricalFeatures df view b).1 = .ok job → df.kind = DFKind.pandas) := by
  constructor
  · intro hk
    have hpass : entityDfTypePasses df = true := by
      simp [entityDfTypePasses, hk]
    have hrange : entityDfEventTimestampRange df
        = .error (.valueError "Please provide an entity_df of type DataFrame instead of the given type") := by
      unfold entityDfEventTimestampRange
      rw [if_neg (by simp [hk])]
    refine ⟨hpass, ?_⟩
    unfold getHistoricalFeatures
    rw [if_neg (by simp [hpass])]
    rcases hres : resolveEntityDfEventTimestampCol df with e | c
    · cases e with
      | valueError m => exact ⟨⟨m, rfl⟩, fun job h => by simp at h⟩
    · rw [hrange]
      exact ⟨⟨_, rfl⟩, fun job h => by simp at h⟩
  · intro job hjob
    unfold getHistoricalFeatures at hjob
    split at hjob
    · simp at hjob
    · split at hjob
      · simp at hjob
      · rcases hrange : entityDfEventTimestampRange df with e | r
        · rw [hrange] at hjob
          simp at hjob
        · unfold entityDfEventTimestampRange at hrange
          by_cases hk : df.kind = DFKind.pandas
          · exact hk
          · rw [if_neg hk] at hrange
            exact absurd hrange (by simp)

theorem dask_entity_df_rejected_witness :
    ∃ m, (getHistoricalFeatures ⟨DFKind.dask, ["event_timestamp"], [], []⟩
        ⟨"data.parquet", 0, []⟩ false).1 = .error (.valueError m) :=
  ((dask_entity_df_rejected ⟨DFKind.dask, ["event_timestamp"], [], []⟩
      ⟨"data.parquet", 0, []⟩ false).1 rfl).2.1

end Feast
